import Mathlib

/-!
Verification of the FinSage risk-scoring service (src/finsage-risk-score/app.py).

The service is a single stateless endpoint: pydantic validates the request
body into a `Features` record, and `score` applies a closed-form arithmetic
formula, adds a random jitter, clamps, rounds to 3 decimal places, and
returns a result record together with a synthetic latency and the current
wall-clock time.

Embedding choices:
* Python floats are modelled as rationals `ℚ`; every arithmetic step of the
  formula is exact in this range.
* `round(x, 3)` is Python's banker's rounding: round half to even, modelled
  by `roundHalfEven` on `x * 1000` followed by division by 1000.
* `random.uniform(-0.05, 0.05)` is modelled as a function `jitterOf` of a
  unit draw `u` (Python computes `a + (b - a) * random()`).
* `random.randint(10, 30)` is modelled as a function `latencyOf` of a
  natural draw `n`, landing uniformly in the inclusive range [10, 30].
* `time.time()` is passed in as an explicit `now` parameter.
* Pydantic validation of the JSON body is modelled by `parseFeatures` on a
  `RawRequest` whose fields are `Option`-valued: a missing required field
  yields `none`, missing optional fields take the declared defaults.
-/

namespace FinSage

/-- The pydantic input model `Features` from app.py: a ticker string and five
numeric feature fields. -/
structure Features where
  ticker : String
  rsi : ℚ
  pe : ℚ
  peg : ℚ
  sentiment : ℚ
  atr : ℚ

/-- A JSON request body for `POST /score`: each field of `Features` may be
present or absent in the payload. -/
structure RawRequest where
  ticker : Option String
  rsi : Option ℚ
  pe : Option ℚ
  peg : Option ℚ
  sentiment : Option ℚ
  atr : Option ℚ

/-- Pydantic validation of the request body: `ticker` is required (its
absence is a 422 validation error, modelled as `none`); the five numeric
fields are optional with the defaults declared in the `Features` class
(`rsi=50, pe=20, peg=1.0, sentiment=0.0, atr=1.0`). -/
def parseFeatures (r : RawRequest) : Option Features :=
  match r.ticker with
  | none => none
  | some t =>
      some ⟨t, r.rsi.getD 50, r.pe.getD 20, r.peg.getD 1,
            r.sentiment.getD 0, r.atr.getD 1⟩

/-- Python's `round` to the nearest integer: round half to even. -/
def roundHalfEven (q : ℚ) : ℤ :=
  if Int.fract q < 1/2 then ⌊q⌋
  else if 1/2 < Int.fract q then ⌊q⌋ + 1
  else if ⌊q⌋ % 2 = 0 then ⌊q⌋ else ⌊q⌋ + 1

/-- Python's `round(q, 3)`: round to 3 decimal places. -/
def pyRound3 (q : ℚ) : ℚ := (roundHalfEven (q * 1000) : ℚ) / 1000

/-- `random.uniform(-0.05, 0.05)` as a function of the unit draw `u`
produced by `random.random()`: Python computes `a + (b - a) * u`. -/
def jitterOf (u : ℚ) : ℚ := -(1/20) + u * (1/10)

/-- `random.randint(10, 30)` as a function of a natural draw `n`: an
integer uniform over the inclusive range [10, 30]. -/
def latencyOf (n : ℕ) : ℕ := 10 + n % 21

/-- The deterministic part of the heuristic in `score`:
`min(1, (rsi_term + pe_term + sentiment_term) / 3)` with
`rsi_term = abs(rsi - 50) / 50`, `pe_term = pe / 100`,
`sentiment_term = 1 - (sentiment + 1) / 2`. -/
def baseRisk (f : Features) : ℚ :=
  let rsi_term := |f.rsi - 50| / 50
  let pe_term := f.pe / 100
  let sentiment_term := 1 - (f.sentiment + 1) / 2
  min 1 ((rsi_term + pe_term + sentiment_term) / 3)

/-- The JSON response of `POST /score`. -/
structure ScoreResult where
  ticker : String
  risk_score : ℚ
  timestamp : ℚ
  latency_ms : ℕ
  model_version : String

/-- The `score` handler from app.py, with the random draws (`u` for the
jitter, `n` for the latency) and the clock reading `now` passed explicitly:
`score_value = round(min(1, max(0, base_risk + jitter)), 3)` and the
response echoes the ticker and reports the fixed model version "v0.1". -/
def score (f : Features) (u : ℚ) (n : ℕ) (now : ℚ) : ScoreResult :=
  let jitter := jitterOf u
  let score_value := pyRound3 (min 1 (max 0 (baseRisk f + jitter)))
  ⟨f.ticker, score_value, now, latencyOf n, "v0.1"⟩

/-- The full endpoint: validate the body, then compute; a validation
failure (`none`) produces no score. -/
def handle (r : RawRequest) (u : ℚ) (n : ℕ) (now : ℚ) : Option ScoreResult :=
  (parseFeatures r).map fun f => score f u n now

/-- The clamp function named by the spec: `clamp(x, lo, hi)`. -/
def clamp (x lo hi : ℚ) : ℚ := min hi (max lo x)

/-- Follows the spec's words (§4.1 algorithm, steps 1–6), to be compared
with the implementation: `rsi_term = |rsi - 50| / 50`, `pe_term = pe / 100`,
`sentiment_term = 1 - (sentiment + 1) / 2`,
`base_risk = min(1, (rsi_term + pe_term + sentiment_term) / 3)`,
`risk_score = round(clamp(base_risk + jitter, 0, 1), 3)`. -/
def spec_risk_score (rsi pe sentiment jitter : ℚ) : ℚ :=
  let rsi_term := |rsi - 50| / 50
  let pe_term := pe / 100
  let sentiment_term := 1 - (sentiment + 1) / 2
  let base_risk := min 1 ((rsi_term + pe_term + sentiment_term) / 3)
  pyRound3 (clamp (base_risk + jitter) 0 1)

/-- Rounding half to even moves a rational by at most 1/2. -/
theorem roundHalfEven_bounds (q : ℚ) :
    q - 1/2 ≤ (roundHalfEven q : ℚ) ∧ (roundHalfEven q : ℚ) ≤ q + 1/2 := by
  have hfl : Int.fract q = q - ⌊q⌋ := rfl
  have h0 : 0 ≤ Int.fract q := Int.fract_nonneg q
  have h1 : Int.fract q < 1 := Int.fract_lt_one q
  unfold roundHalfEven
  rcases lt_trichotomy (Int.fract q) (1/2) with h | h | h
  · rw [if_pos h]
    constructor <;> linarith
  · rw [if_neg (by linarith), if_neg (by linarith)]
    by_cases he : ⌊q⌋ % 2 = 0
    · rw [if_pos he]
      constructor <;> linarith
    · rw [if_neg he]
      constructor <;> push_cast <;> linarith
  · rw [if_neg (by linarith), if_pos h]
    constructor <;> push_cast <;> linarith

/-- An integer lower bound on the argument bounds the rounding. -/
theorem roundHalfEven_ge (k : ℤ) (q : ℚ) (h : (k : ℚ) ≤ q) :
    k ≤ roundHalfEven q := by
  have hb := (roundHalfEven_bounds q).1
  have h2 : (k : ℚ) - 1 < (roundHalfEven q : ℚ) := by linarith
  have h3 : k - 1 < roundHalfEven q := by exact_mod_cast h2
  omega

/-- An integer upper bound on the argument bounds the rounding. -/
theorem roundHalfEven_le (k : ℤ) (q : ℚ) (h : q ≤ (k : ℚ)) :
    roundHalfEven q ≤ k := by
  have hb := (roundHalfEven_bounds q).2
  have h2 : (roundHalfEven q : ℚ) < (k : ℚ) + 1 := by linarith
  have h3 : roundHalfEven q < k + 1 := by exact_mod_cast h2
  omega

/-- `pyRound3` maps `[a/1000, b/1000]` into itself for integer `a, b`. -/
theorem pyRound3_between (a b : ℤ) (x : ℚ)
    (ha : (a : ℚ)/1000 ≤ x) (hb : x ≤ (b : ℚ)/1000) :
    (a : ℚ)/1000 ≤ pyRound3 x ∧ pyRound3 x ≤ (b : ℚ)/1000 := by
  have hge : a ≤ roundHalfEven (x * 1000) :=
    roundHalfEven_ge a (x * 1000) (by linarith)
  have hle : roundHalfEven (x * 1000) ≤ b :=
    roundHalfEven_le b (x * 1000) (by linarith)
  have hge' : (a : ℚ) ≤ (roundHalfEven (x * 1000) : ℚ) := by exact_mod_cast hge
  have hle' : (roundHalfEven (x * 1000) : ℚ) ≤ (b : ℚ) := by exact_mod_cast hle
  unfold pyRound3
  constructor <;> linarith

/-- The risk-score field of the response, unfolded. -/
theorem score_risk_score (f : Features) (u : ℚ) (n : ℕ) (now : ℚ) :
    (score f u n now).risk_score
      = pyRound3 (min 1 (max 0 (baseRisk f + jitterOf u))) := rfl

/-- C1: for every valid `Features` input, `score` computes exactly the
spec's formula — `rsi_term`, `pe_term`, `sentiment_term`, `base_risk`
as stated — and `risk_score = round(clamp(base_risk + jitter, 0, 1), 3)`:
the clamp to [0, 1] happens before the rounding to 3 decimal places. -/
theorem score_matches_spec_formula (f : Features) (u : ℚ) (n : ℕ) (now : ℚ) :
    (score f u n now).risk_score
      = spec_risk_score f.rsi f.pe f.sentiment (jitterOf u) := rfl

/-- C2: for every valid input and every jitter value in [-0.05, 0.05],
the `risk_score` field of the response lies in [0, 1]. -/
theorem risk_score_in_unit_interval (f : Features) (u : ℚ) (n : ℕ) (now : ℚ)
    (hj0 : -(1/20) ≤ jitterOf u) (hj1 : jitterOf u ≤ 1/20) :
    0 ≤ (score f u n now).risk_score ∧ (score f u n now).risk_score ≤ 1 := by
  rw [score_risk_score]
  have h0 : (0 : ℚ) ≤ min 1 (max 0 (baseRisk f + jitterOf u)) :=
    le_min (by norm_num) (le_max_left 0 _)
  have h1 : min 1 (max 0 (baseRisk f + jitterOf u)) ≤ 1 := min_le_left 1 _
  have := pyRound3_between 0 1000 (min 1 (max 0 (baseRisk f + jitterOf u)))
    (by push_cast; linarith) (by push_cast; linarith)
  constructor <;> [linarith [this.1]; linarith [this.2]]

/-- Witness for C2 at a concrete input and draw. -/
theorem risk_score_in_unit_interval_witness :
    (-(1/20) ≤ jitterOf 0 ∧ jitterOf 0 ≤ 1/20) ∧
    (0 ≤ (score ⟨"AAPL", 50, 20, 1, 0, 1⟩ 0 0 0).risk_score ∧
      (score ⟨"AAPL", 50, 20, 1, 0, 1⟩ 0 0 0).risk_score ≤ 1) :=
  ⟨⟨by norm_num [jitterOf], by norm_num [jitterOf]⟩,
   risk_score_in_unit_interval ⟨"AAPL", 50, 20, 1, 0, 1⟩ 0 0 0
     (by norm_num [jitterOf]) (by norm_num [jitterOf])⟩

/-- C3: the endpoint fails with a validation error (no score computed)
exactly when the `ticker` field is missing from the request body; every
request that does supply a ticker together with type-conforming numeric
fields succeeds. -/
theorem handle_validation (r : RawRequest) (u : ℚ) (n : ℕ) (now : ℚ) :
    (handle r u n now).isSome = r.ticker.isSome := by
  cases h : r.ticker <;> simp [handle, parseFeatures, h]

/-- C4: `peg` and `atr` never influence the output: two inputs that differ
only in those fields produce identical responses under the same random
draws and clock reading. -/
theorem peg_atr_unused (t : String) (rsi pe s peg1 atr1 peg2 atr2 u now : ℚ)
    (n : ℕ) :
    score ⟨t, rsi, pe, peg1, s, atr1⟩ u n now
      = score ⟨t, rsi, pe, peg2, s, atr2⟩ u n now := rfl

/-- C5: for `rsi = 100, pe = 100, sentiment = -1` the base risk is
`min(1, 1) = 1`, and for every jitter in [-0.05, 0.05] the final
`risk_score` lies in [0.95, 1]. -/
theorem extreme_input_risk (t : String) (u now : ℚ) (n : ℕ)
    (hj0 : -(1/20) ≤ jitterOf u) (hj1 : jitterOf u ≤ 1/20) :
    baseRisk ⟨t, 100, 100, 1, -1, 1⟩ = 1 ∧
    19/20 ≤ (score ⟨t, 100, 100, 1, -1, 1⟩ u n now).risk_score ∧
    (score ⟨t, 100, 100, 1, -1, 1⟩ u n now).risk_score ≤ 1 := by
  have hbase : baseRisk ⟨t, 100, 100, 1, -1, 1⟩ = 1 := by
    norm_num [baseRisk]
  have hlo : (19 : ℚ)/20 ≤ min 1 (max 0 (1 + jitterOf u)) :=
    le_min (by norm_num) (le_trans (by linarith) (le_max_right 0 _))
  have hhi : min 1 (max 0 (1 + jitterOf u)) ≤ 1 := min_le_left 1 _
  have hb := pyRound3_between 950 1000 (min 1 (max 0 (1 + jitterOf u)))
    (by push_cast; linarith) (by push_cast; linarith)
  refine ⟨hbase, ?_, ?_⟩ <;> rw [score_risk_score, hbase]
  · linarith [hb.1]
  · linarith [hb.2]

/-- Witness for C5 at the jitter-zero draw. -/
theorem extreme_input_risk_witness :
    (-(1/20) ≤ jitterOf (1/2) ∧ jitterOf (1/2) ≤ 1/20) ∧
    (baseRisk ⟨"NVDA", 100, 100, 1, -1, 1⟩ = 1 ∧
     19/20 ≤ (score ⟨"NVDA", 100, 100, 1, -1, 1⟩ (1/2) 0 0).risk_score ∧
     (score ⟨"NVDA", 100, 100, 1, -1, 1⟩ (1/2) 0 0).risk_score ≤ 1) :=
  ⟨⟨by norm_num [jitterOf], by norm_num [jitterOf]⟩,
   extreme_input_risk "NVDA" (1/2) 0 0
     (by norm_num [jitterOf]) (by norm_num [jitterOf])⟩

/-- Rounding the all-default base risk: `round(7/30, 3) = 0.233`. -/
theorem pyRound3_default_base : pyRound3 (7/30) = 233/1000 := by
  have hfl : ⌊(7 : ℚ)/30 * 1000⌋ = 233 := by
    rw [Int.floor_eq_iff]
    norm_num
  have hfr : Int.fract ((7 : ℚ)/30 * 1000) < 1/2 := by
    rw [← Int.self_sub_floor, hfl]
    norm_num
  unfold pyRound3 roundHalfEven
  rw [if_pos hfr, hfl]
  norm_num

/-- C6: omitted optional fields take the defaults
`rsi = 50, pe = 20, peg = 1.0, sentiment = 0.0, atr = 1.0`; for the
all-default input the base risk is `(0 + 0.2 + 0.5)/3 = 7/30 = 0.2333...`,
and with the jitter fixed to 0 (unit draw 1/2) the rounded risk score is
exactly 0.233. -/
theorem default_input_risk (t : String) (n : ℕ) (now : ℚ) :
    parseFeatures ⟨some t, none, none, none, none, none⟩
      = some ⟨t, 50, 20, 1, 0, 1⟩ ∧
    baseRisk ⟨t, 50, 20, 1, 0, 1⟩ = 7/30 ∧
    jitterOf (1/2) = 0 ∧
    (score ⟨t, 50, 20, 1, 0, 1⟩ (1/2) n now).risk_score = 233/1000 := by
  have h1 : baseRisk ⟨t, 50, 20, 1, 0, 1⟩ = 7/30 := by
    norm_num [baseRisk]
  have h2 : jitterOf (1/2) = 0 := by norm_num [jitterOf]
  refine ⟨rfl, h1, h2, ?_⟩
  rw [score_risk_score, h1, h2]
  have h3 : min 1 (max 0 ((7 : ℚ)/30 + 0)) = 7/30 := by
    rw [add_zero, max_eq_right (by norm_num), min_eq_right (by norm_num)]
  rw [h3, pyRound3_default_base]

/-- C7: every response's risk score is an integer multiple of 0.001. -/
theorem risk_score_three_decimals (f : Features) (u now : ℚ) (n : ℕ) :
    ∃ k : ℤ, (score f u n now).risk_score = (k : ℚ)/1000 :=
  ⟨roundHalfEven (min 1 (max 0 (baseRisk f + jitterOf u)) * 1000), rfl⟩

/-- C8: the latency field is the synthetic draw `latencyOf n` — a function
of the random draw only, independent of the input — and always an integer
in [10, 30]. -/
theorem latency_ms_range (f : Features) (u now : ℚ) (n : ℕ) :
    (score f u n now).latency_ms = latencyOf n ∧
    10 ≤ (score f u n now).latency_ms ∧ (score f u n now).latency_ms ≤ 30 := by
  have hl : (score f u n now).latency_ms = latencyOf n := rfl
  refine ⟨hl, ?_, ?_⟩ <;> rw [hl] <;> unfold latencyOf <;> omega

/-- C9: the response echoes the input ticker byte for byte, and the model
version is the fixed constant "v0.1". -/
theorem ticker_echo_and_version (f : Features) (u now : ℚ) (n : ℕ) :
    (score f u n now).ticker = f.ticker ∧
    (score f u n now).model_version = "v0.1" :=
  ⟨rfl, rfl⟩

/-- C10: the computation is total over the whole input type — arbitrary,
even out-of-range, feature values and an arbitrary jitter draw — and the
final risk score still lies in [0, 1], even when the base risk is negative
(only the upper bound `min 1` is applied to it). -/
theorem score_total_and_clamped (f : Features) (u now : ℚ) (n : ℕ) :
    0 ≤ (score f u n now).risk_score ∧ (score f u n now).risk_score ≤ 1 := by
  rw [score_risk_score]
  have h0 : (0 : ℚ) ≤ min 1 (max 0 (baseRisk f + jitterOf u)) :=
    le_min (by norm_num) (le_max_left 0 _)
  have h1 : min 1 (max 0 (baseRisk f + jitterOf u)) ≤ 1 := min_le_left 1 _
  have hb := pyRound3_between 0 1000 (min 1 (max 0 (baseRisk f + jitterOf u)))
    (by push_cast; linarith) (by push_cast; linarith)
  constructor
  · linarith [hb.1]
  · linarith [hb.2]

end FinSage
